import Mathlib

/-!
Verification of the filler-aware interruption classifier
(`livekit_agents_extensions/filler_interrupt_handler.py`).

The Python module is shallowly embedded below: strings are Lean `String`
values, Python `set` objects are modelled as `List String` with membership
via `List.contains`, floats are modelled as rationals `ℚ`, Python `dict`
metadata is modelled as an association list with dict-style insertion
(later insertions of the same key overwrite), and a callback that may
raise is modelled as a function into `Except ε Unit`.  Character-level
operations (`str.lower`, `str.strip`, the token regex) are modelled over
the ASCII fragment that `Char.isAlphanum` covers.
-/

namespace FillerInterrupt

/-- Models Python `str.lower` on one character (ASCII range, which is the
fragment the embedding covers). -/
def lowerChar (c : Char) : Char :=
  if 65 ≤ c.toNat ∧ c.toNat ≤ 90 then Char.ofNat (c.toNat + 32) else c

/-- Models Python `str.lower`. -/
def pyLower (s : String) : String :=
  String.mk (s.toList.map lowerChar)

/-- Models Python `str.strip` (drop leading and trailing whitespace). -/
def pyStrip (s : String) : String :=
  String.mk (((s.toList.dropWhile Char.isWhitespace).reverse.dropWhile
    Char.isWhitespace).reverse)

/-- The character class `\w` together with the apostrophe (code 39): the
characters the token regex `[^\w']+` does NOT match. -/
def isTokenChar (c : Char) : Bool :=
  c.isAlphanum || c == '_' || c.toNat == 39

/-- Replace every maximal run of non-token characters by a single space:
the effect of `_TOKEN_RE.sub(" ", text)` where `_TOKEN_RE` matches one or
more characters outside `\w` and apostrophe.  `prevSep` records whether the
previous character was part of such a run. -/
def squashSeps : List Char → Bool → List Char
  | [], _ => []
  | c :: rest, prevSep =>
    if isTokenChar c then c :: squashSeps rest false
    else if prevSep then squashSeps rest true
    else ' ' :: squashSeps rest true

/-- `_TOKEN_RE.sub(" ", text)`. -/
def tokenReSub (s : String) : String :=
  String.mk (squashSeps s.toList false)

/-- `normalize_text`: substitute the token regex by spaces, strip, lowercase. -/
def normalize_text (text : String) : String :=
  pyLower (pyStrip (tokenReSub text))

/-- Helper for `pySplitWs`: split a character list on whitespace,
accumulating the current (reversed) token. -/
def splitWsAux : List Char → List Char → List String
  | [], acc => [String.mk acc.reverse]
  | c :: cs, acc =>
    if c.isWhitespace then String.mk acc.reverse :: splitWsAux cs []
    else splitWsAux cs (c :: acc)

/-- Models Python `str.split()` with no argument: split on whitespace runs,
dropping empty pieces. -/
def pySplitWs (s : String) : List String :=
  (splitWsAux s.toList []).filter (fun t => t ≠ "")

/-- `tokenize`: `[t for t in normalize_text(text).split() if t]`. -/
def tokenize (text : String) : List String :=
  (pySplitWs (normalize_text text)).filter (fun t => t ≠ "")

/-- `DEFAULT_IGNORED_WORDS` (a Python set literal, modelled as a list). -/
def DEFAULT_IGNORED_WORDS : List String :=
  ["uh", "umm", "hmm", "haan", "uhh", "uhm", "erm", "ah", "mm", "mmh", "mhmm"]

/-- `DEFAULT_FORCE_STOP_WORDS` (the source set literal repeats "waitone";
set membership is unaffected). -/
def DEFAULT_FORCE_STOP_WORDS : List String :=
  ["stop", "wait", "hold", "pause", "waita", "no", "waitone", "waitone", "one moment"]

/-- The configuration fields of `FillerInterruptHandler` relevant to
classification (the lock, logger and callback registry are modelled
separately). -/
structure Config where
  ignored_words : List String
  force_stop_words : List String
  min_confidence_to_consider : ℚ
  ignore_if_confidence_below : ℚ
deriving Repr, DecidableEq

/-- Python truthiness fallback `xs or default` for an optional list argument:
`None` and the empty list both fall back. -/
def pyOrDefault (x : Option (List String)) (d : List String) : List String :=
  match x with
  | some l => if l = [] then d else l
  | none => d

/-- `FillerInterruptHandler.__init__`: both word collections are lowercased
entry-wise (`set(w.lower() for w in ...)`); thresholds stored as given. -/
def handlerInit (ignored_words force_stop_words : Option (List String))
    (min_confidence_to_consider ignore_if_confidence_below : ℚ) : Config :=
  { ignored_words :=
      (pyOrDefault ignored_words DEFAULT_IGNORED_WORDS).map pyLower
    force_stop_words :=
      (pyOrDefault force_stop_words DEFAULT_FORCE_STOP_WORDS).map pyLower
    min_confidence_to_consider := min_confidence_to_consider
    ignore_if_confidence_below := ignore_if_confidence_below }

/-- `update_ignored_words`: the new ignored-word set,
`set(w.lower() for w in new_list)`. -/
def update_ignored_words (new_list : List String) : List String :=
  new_list.map pyLower

/-- `update_force_stop_words`: the new force-stop-word set,
`set(w.lower() for w in new_list)`. -/
def update_force_stop_words (new_list : List String) : List String :=
  new_list.map pyLower

/-- One element of the `words` argument of `handle_transcript`: either not a
dict (`malformed`, filtered out by the `isinstance(w, dict)` guard) or a dict
whose `"confidence"` key may be absent (then `w.get("confidence", 1.0)`
yields `1.0`). -/
inductive WordEntry where
  | malformed : WordEntry
  | record : Option ℚ → WordEntry
deriving Repr, DecidableEq

/-- `confidences = [w.get("confidence", 1.0) for w in words if isinstance(w, dict)]`. -/
def entryConfidences (ws : List WordEntry) : List ℚ :=
  ws.filterMap (fun w =>
    match w with
    | .malformed => none
    | .record c => some (c.getD 1))

/-- The average-confidence resolution of `handle_transcript` lines 150-159:
`if words:` (truthiness — `None` and `[]` both fail), then average the
extracted confidences if any survive, otherwise fall back to the caller
`confidence`, otherwise `1.0`. -/
def resolveAvgConf (confidence : Option ℚ) (words : Option (List WordEntry)) : ℚ :=
  match words with
  | some ws =>
    if ws = [] then confidence.getD 1
    else
      if entryConfidences ws = [] then confidence.getD 1
      else (entryConfidences ws).sum / ((entryConfidences ws).length : ℚ)
  | none => confidence.getD 1

/-- The three callback kinds of the handler. -/
inductive OutcomeKind where
  | validInterruption : OutcomeKind
  | ignoredFiller : OutcomeKind
  | speechRegistered : OutcomeKind
deriving Repr, DecidableEq

/-- A classification outcome: the kind (which callback slot fires), the
`reason` string, the computed average confidence, and — only for the
`mixed_tokens` branch — the list of non-ignored tokens. -/
structure Outcome where
  kind : OutcomeKind
  reason : String
  avg_conf : ℚ
  non_ignored : Option (List String)
deriving Repr, DecidableEq

/-- The decision tree of `handle_transcript` (lines 143-207), with the
speaking flag passed as the snapshot value read under the lock.  Returns
`none` exactly when the stripped text is empty (the silent-drop path);
otherwise returns the single outcome produced.  The branch structure and
conditions mirror the source: the confidence gate first, then the
force-stop check over all tokens, then the filler-only check
(`non_ignored_tokens` empty), else `mixed_tokens`. -/
def classify (cfg : Config) (agent_speaking : Bool) (text : String)
    (confidence : Option ℚ) (words : Option (List WordEntry)) : Option Outcome :=
  if pyStrip text = "" then none
  else if agent_speaking then
    if resolveAvgConf confidence words < cfg.ignore_if_confidence_below then
      some ⟨.ignoredFiller, "low_confidence", resolveAvgConf confidence words, none⟩
    else if (tokenize (pyStrip text)).any
        (fun t => cfg.force_stop_words.contains t) then
      some ⟨.validInterruption, "force_stop_word", resolveAvgConf confidence words, none⟩
    else if (tokenize (pyStrip text)).filter
        (fun t => !cfg.ignored_words.contains t) = [] then
      some ⟨.ignoredFiller, "filler_only", resolveAvgConf confidence words, none⟩
    else
      some ⟨.validInterruption, "mixed_tokens", resolveAvgConf confidence words,
        some ((tokenize (pyStrip text)).filter
          (fun t => !cfg.ignored_words.contains t))⟩
  else
    some ⟨.speechRegistered, "agent_quiet", resolveAvgConf confidence words, none⟩

/-- A value stored in the metadata dict passed to callbacks: the diagnostic
fields use a string (`reason`), a rational (`avg_conf`) or a token list
(`non_ignored`); caller-supplied metadata values use the same variants. -/
inductive MValue where
  | str : String → MValue
  | num : ℚ → MValue
  | strList : List String → MValue
deriving Repr, DecidableEq

/-- A Python dict modelled as an association list built by dict-style
insertion. -/
abbrev Metadata := List (String × MValue)

/-- Dict assignment `d[k] = v`: overwrite the binding of `k` if present,
else append it. -/
def dictInsert (d : Metadata) (k : String) (v : MValue) : Metadata :=
  if d.any (fun p => p.1 = k) then
    d.map (fun p => if p.1 = k then (k, v) else p)
  else d ++ [(k, v)]

/-- Dict lookup `d.get(k)`. -/
def dictGet (d : Metadata) (k : String) : Option MValue :=
  (d.find? (fun p => p.1 = k)).map Prod.snd

/-- First-defined choice between two optional lookups. -/
def olookup (a b : Option MValue) : Option MValue :=
  match a with
  | some v => some v
  | none => b

/-- The diagnostic fields of the dict literal each branch builds before
spreading the caller metadata: `reason` and `avg_conf` always, plus
`non_ignored` for the `mixed_tokens` branch (in the source order
`reason`, `non_ignored`, `avg_conf`). -/
def diagFields (o : Outcome) : Metadata :=
  match o.non_ignored with
  | some toks =>
    [("reason", .str o.reason), ("non_ignored", .strList toks),
     ("avg_conf", .num o.avg_conf)]
  | none => [("reason", .str o.reason), ("avg_conf", .num o.avg_conf)]

/-- The dict literal `{"reason": ..., "avg_conf": ..., **(metadata or {})}`:
start from the diagnostic fields and insert every caller-supplied pair in
order, each insertion overwriting any same-keyed binding. -/
def payloadFor (o : Outcome) (metadata : Metadata) : Metadata :=
  metadata.foldl (fun d kv => dictInsert d kv.1 kv.2) (diagFields o)

/-- The callback registry `self._callbacks`: at most one handler per kind.
A handler is `cb(text, metadata)`; a handler that raises is modelled as
returning `Except.error`. -/
structure Callbacks (ε : Type) where
  valid_interruption : Option (String → Metadata → Except ε Unit)
  ignored_filler : Option (String → Metadata → Except ε Unit)
  speech_registered : Option (String → Metadata → Except ε Unit)

/-- `self._callbacks.get(key)` for the key each outcome kind dispatches to. -/
def slotFor (k : OutcomeKind) (cbs : Callbacks ε) :
    Option (String → Metadata → Except ε Unit) :=
  match k with
  | .validInterruption => cbs.valid_interruption
  | .ignoredFiller => cbs.ignored_filler
  | .speechRegistered => cbs.speech_registered

/-- `handle_transcript` including its callback invocation: classify, and if
an outcome is produced and a callback is registered for its kind, call it
with the stripped text and the merged metadata dict.  The source wraps the
call in no try/except, so the callback's own result (normal return or
raised exception) is the result of `handle_transcript`. -/
def handle_transcript (cfg : Config) (agent_speaking : Bool)
    (cbs : Callbacks ε) (text : String) (confidence : Option ℚ)
    (words : Option (List WordEntry)) (metadata : Metadata) : Except ε Unit :=
  match classify cfg agent_speaking text confidence words with
  | none => .ok ()
  | some o =>
    match slotFor o.kind cbs with
    | none => .ok ()
    | some cb => cb (pyStrip text) (payloadFor o metadata)

/-- A concrete configuration used by the witnesses and counterexamples: the
default word sets with `min_confidence_to_consider = 1/2` and
`ignore_if_confidence_below = 2/5`, the source defaults. -/
def cfgEx : Config :=
  ⟨DEFAULT_IGNORED_WORDS, DEFAULT_FORCE_STOP_WORDS, mkRat 1 2, mkRat 2 5⟩

/-! Concrete callback registries used by witnesses and counterexamples. -/

/-- A handler that returns normally. -/
def cbNoop : String → Metadata → Except Nat Unit := fun _ _ => .ok ()

/-- A registry with only the speech_registered slot filled. -/
def cbsA : Callbacks Nat := ⟨none, none, some cbNoop⟩

/-- A registry with every slot filled, agreeing with `cbsA` on the
speech_registered slot. -/
def cbsB : Callbacks Nat := ⟨some cbNoop, some cbNoop, some cbNoop⟩

/-- The outcome classify produces for non-empty text while the agent is
quiet and no confidence data is supplied. -/
def outQuiet : Outcome := ⟨.speechRegistered, "agent_quiet", 1, none⟩

/-- C4: while the agent is speaking, an average confidence strictly below
`ignore_if_confidence_below` always yields IgnoredFiller with reason
"low_confidence", whatever the tokens of the (non-empty) text. -/
theorem C4_low_confidence (cfg : Config) (text : String)
    (confidence : Option ℚ) (words : Option (List WordEntry))
    (hne : pyStrip text ≠ "")
    (hlt : resolveAvgConf confidence words < cfg.ignore_if_confidence_below) :
    classify cfg true text confidence words =
      some ⟨.ignoredFiller, "low_confidence", resolveAvgConf confidence words, none⟩ := by
  simp [classify, hne, hlt]

/-- C4 witness: the text "stop" is exactly a force-stop word, yet with
confidence 1/10 below the threshold 2/5 it is classified low_confidence. -/
theorem C4_low_confidence_witness :
    classify cfgEx true "stop" (some (mkRat 1 10)) none =
      some ⟨.ignoredFiller, "low_confidence",
        resolveAvgConf (some (mkRat 1 10)) none, none⟩ :=
  C4_low_confidence cfgEx "stop" (some (mkRat 1 10)) none (by decide) (by decide)

/-- C5: while the agent is speaking with passing confidence, the presence of
any force-stop token yields ValidInterruption with reason
"force_stop_word", whatever the other tokens are. -/
theorem C5_force_stop (cfg : Config) (text : String)
    (confidence : Option ℚ) (words : Option (List WordEntry))
    (hne : pyStrip text ≠ "")
    (hge : ¬ resolveAvgConf confidence words < cfg.ignore_if_confidence_below)
    (hfs : ∃ t ∈ tokenize (pyStrip text), cfg.force_stop_words.contains t = true) :
    classify cfg true text confidence words =
      some ⟨.validInterruption, "force_stop_word",
        resolveAvgConf confidence words, none⟩ := by
  have hany : (tokenize (pyStrip text)).any
      (fun t => cfg.force_stop_words.contains t) = true :=
    List.any_eq_true.mpr hfs
  unfold classify
  rw [if_neg hne, if_pos rfl, if_neg hge, if_pos hany]

/-- C5 witness: "uh stop" at confidence 9/10 — the filler "uh" does not
prevent the force-stop classification. -/
theorem C5_force_stop_witness :
    classify cfgEx true "uh stop" (some (mkRat 9 10)) none =
      some ⟨.validInterruption, "force_stop_word",
        resolveAvgConf (some (mkRat 9 10)) none, none⟩ :=
  C5_force_stop cfgEx "uh stop" (some (mkRat 9 10)) none (by decide) (by decide)
    ⟨"stop", by decide, by decide⟩

/-- C7: while the agent is NOT speaking, every non-empty transcript is
classified SpeechRegistered with reason "agent_quiet", for every confidence
value and every token content. -/
theorem C7_agent_quiet (cfg : Config) (text : String)
    (confidence : Option ℚ) (words : Option (List WordEntry))
    (hne : pyStrip text ≠ "") :
    classify cfg false text confidence words =
      some ⟨.speechRegistered, "agent_quiet",
        resolveAvgConf confidence words, none⟩ := by
  simp [classify, hne]

/-- C7 witness: "hello there" at confidence 1/10 (below every gate) is still
registered while the agent is quiet; the text even contains the force-stop
word "no" as a substring of nothing — content is irrelevant. -/
theorem C7_agent_quiet_witness :
    classify cfgEx false "stop uh hello" (some (mkRat 1 10)) none =
      some ⟨.speechRegistered, "agent_quiet",
        resolveAvgConf (some (mkRat 1 10)) none, none⟩ :=
  C7_agent_quiet cfgEx "stop uh hello" (some (mkRat 1 10)) none (by decide)

/-- C10: two configurations differing only in `min_confidence_to_consider`
classify every transcript identically and drive the callbacks identically:
the field is stored but never read by the decision logic. -/
theorem C10_min_confidence_unused {ε : Type} (iw fs : List String)
    (m₁ m₂ igb : ℚ) (sp : Bool) (cbs : Callbacks ε) (text : String)
    (confidence : Option ℚ) (words : Option (List WordEntry))
    (metadata : Metadata) :
    classify ⟨iw, fs, m₁, igb⟩ sp text confidence words =
      classify ⟨iw, fs, m₂, igb⟩ sp text confidence words ∧
    handle_transcript ⟨iw, fs, m₁, igb⟩ sp cbs text confidence words metadata =
      handle_transcript ⟨iw, fs, m₂, igb⟩ sp cbs text confidence words metadata :=
  ⟨rfl, rfl⟩

/-- C6: empty-after-strip text produces no outcome and invokes no callback;
non-empty text always produces exactly one outcome; and the produced
outcome's kind alone determines which callback slot can fire — registries
agreeing on that slot behave identically, and an empty slot means no
callback runs. -/
theorem C6_single_outcome {ε : Type} (cfg : Config) (sp : Bool)
    (text : String) (confidence : Option ℚ) (words : Option (List WordEntry))
    (metadata : Metadata) (cbs cbs' : Callbacks ε) (o : Outcome) :
    (pyStrip text = "" →
      classify cfg sp text confidence words = none ∧
      handle_transcript cfg sp cbs text confidence words metadata = .ok ()) ∧
    (pyStrip text ≠ "" →
      (classify cfg sp text confidence words).isSome = true) ∧
    (classify cfg sp text confidence words = some o →
      (slotFor o.kind cbs = none →
        handle_transcript cfg sp cbs text confidence words metadata = .ok ()) ∧
      (slotFor o.kind cbs' = slotFor o.kind cbs →
        handle_transcript cfg sp cbs' text confidence words metadata =
          handle_transcript cfg sp cbs text confidence words metadata)) := by
  refine ⟨?_, ?_, ?_⟩
  · intro h
    have hcl : classify cfg sp text confidence words = none := by
      simp [classify, h]
    exact ⟨hcl, by simp [handle_transcript, hcl]⟩
  · intro h
    unfold classify
    rw [if_neg h]
    split
    · split
      · rfl
      · split
        · rfl
        · split
          · rfl
          · rfl
    · rfl
  · intro hcl
    constructor
    · intro hnone
      simp [handle_transcript, hcl, hnone]
    · intro heq
      simp only [handle_transcript, hcl, heq]

/-- C6 witness: whitespace-only text "  " drops silently; "hi" produces an
outcome; with classify landing on speech_registered, an empty slot means no
callback and registries agreeing on that slot are indistinguishable. -/
theorem C6_single_outcome_witness :
    (classify cfgEx true "  " none none = none ∧
      handle_transcript cfgEx true cbsA "  " none none [] = .ok ()) ∧
    (classify cfgEx true "hi" none none).isSome = true ∧
    handle_transcript cfgEx false ⟨none, none, none⟩ "hi" none none [] =
      (.ok () : Except Nat Unit) ∧
    handle_transcript cfgEx false cbsB "hi" none none [] =
      handle_transcript cfgEx false cbsA "hi" none none [] :=
  ⟨(C6_single_outcome cfgEx true "  " none none [] cbsA cbsA outQuiet).1 (by decide),
   (C6_single_outcome cfgEx true "hi" none none [] cbsA cbsA outQuiet).2.1 (by decide),
   ((C6_single_outcome cfgEx false "hi" none none [] ⟨none, none, none⟩ cbsA
      outQuiet).2.2 (by decide)).1 rfl,
   ((C6_single_outcome cfgEx false "hi" none none [] cbsA cbsB
      outQuiet).2.2 (by decide)).2 rfl⟩

/-- C3 (amended): the filler_only outcome is produced exactly when the agent
is speaking, the average confidence is not below the gate, no token is a
force-stop word, and every token is in the ignored set — including,
vacuously, a text whose token list is empty (the non-empty-token-list
condition of the original claim does not hold on the code). -/
theorem C3_filler_only (cfg : Config) (sp : Bool) (text : String)
    (confidence : Option ℚ) (words : Option (List WordEntry))
    (hne : pyStrip text ≠ "") :
    classify cfg sp text confidence words =
        some ⟨.ignoredFiller, "filler_only", resolveAvgConf confidence words, none⟩ ↔
      sp = true ∧
      ¬ resolveAvgConf confidence words < cfg.ignore_if_confidence_below ∧
      (∀ t ∈ tokenize (pyStrip text), cfg.force_stop_words.contains t = false) ∧
      (∀ t ∈ tokenize (pyStrip text), cfg.ignored_words.contains t = true) := by
  unfold classify
  rw [if_neg hne]
  constructor
  · intro h
    cases sp with
    | false => simp at h
    | true =>
      rw [if_pos rfl] at h
      by_cases hlt : resolveAvgConf confidence words < cfg.ignore_if_confidence_below
      · rw [if_pos hlt] at h
        simp at h
      · rw [if_neg hlt] at h
        by_cases hfs : (tokenize (pyStrip text)).any
            (fun t => cfg.force_stop_words.contains t) = true
        · rw [if_pos hfs] at h
          simp at h
        · rw [if_neg hfs] at h
          by_cases hfi : (tokenize (pyStrip text)).filter
              (fun t => !cfg.ignored_words.contains t) = []
          · refine ⟨rfl, hlt, ?_, ?_⟩
            · intro t ht
              have hfs' := hfs
              simp at hfs'
              simpa using hfs' t ht
            · intro t ht
              simpa using List.filter_eq_nil_iff.mp hfi t ht
          · rw [if_neg hfi] at h
            simp at h
  · rintro ⟨hsp, hlt, hforce, hign⟩
    subst hsp
    rw [if_pos rfl, if_neg hlt]
    have hfs : (tokenize (pyStrip text)).any
        (fun t => cfg.force_stop_words.contains t) = false :=
      List.any_eq_false.mpr (by intro t ht; simpa using hforce t ht)
    rw [if_neg (by rw [hfs]; exact Bool.false_ne_true)]
    have hfi : (tokenize (pyStrip text)).filter
        (fun t => !cfg.ignored_words.contains t) = [] :=
      List.filter_eq_nil_iff.mpr (by intro t ht; simpa using hign t ht)
    rw [if_pos hfi]

/-- C3 witness: "uh umm" at confidence 9/10 while speaking is filler_only. -/
theorem C3_filler_only_witness :
    classify cfgEx true "uh umm" (some (mkRat 9 10)) none =
      some ⟨.ignoredFiller, "filler_only",
        resolveAvgConf (some (mkRat 9 10)) none, none⟩ :=
  (C3_filler_only cfgEx true "uh umm" (some (mkRat 9 10)) none (by decide)).mpr
    ⟨rfl, by decide, by decide, by decide⟩

/-- C3 counterexample: "!!!" is non-empty after stripping but tokenizes to
the empty list, and while the agent speaks it IS classified filler_only —
refuting the original claim that an empty token list never yields
filler_only. -/
theorem C3_filler_only_counterexample :
    pyStrip "!!!" ≠ "" ∧ tokenize (pyStrip "!!!") = [] ∧
    classify cfgEx true "!!!" none none =
      some ⟨.ignoredFiller, "filler_only", 1, none⟩ :=
  ⟨by decide, by decide, by decide⟩

/-- C8 (amended): with a words list supplied, the average is the unweighted
mean of the surviving per-word confidences only when at least one entry
survives the malformed-skip; when none survives (all entries malformed, or
the list empty) the caller confidence is used, defaulting to 1; with no
words list the caller confidence is used, defaulting to 1.  Malformed
entries are skipped and well-formed entries contribute their confidence
(1 when the key is absent). -/
theorem C8_avg_confidence (confidence : Option ℚ) (c : ℚ) (ws : List WordEntry) :
    (entryConfidences ws ≠ [] →
      resolveAvgConf confidence (some ws) =
        (entryConfidences ws).sum / ((entryConfidences ws).length : ℚ)) ∧
    (entryConfidences ws = [] →
      resolveAvgConf confidence (some ws) = confidence.getD 1) ∧
    resolveAvgConf confidence none = confidence.getD 1 ∧
    resolveAvgConf (some c) none = c ∧
    resolveAvgConf none none = 1 ∧
    entryConfidences (.malformed :: ws) = entryConfidences ws ∧
    entryConfidences (.record (some c) :: ws) = c :: entryConfidences ws ∧
    entryConfidences (.record none :: ws) = 1 :: entryConfidences ws := by
  refine ⟨?_, ?_, rfl, rfl, rfl, ?_, ?_, ?_⟩
  · intro h
    have hws : ws ≠ [] := by
      intro he
      subst he
      exact h rfl
    simp only [resolveAvgConf]
    rw [if_neg hws, if_neg h]
  · intro h
    simp only [resolveAvgConf]
    by_cases hws : ws = []
    · rw [if_pos hws]
    · rw [if_neg hws, if_pos h]
  · simp [entryConfidences]
  · simp [entryConfidences]
  · simp [entryConfidences]

/-- C8 witness: a lone well-formed entry among malformed ones is averaged;
an all-malformed list falls back to the caller confidence; with
nothing supplied the average is 1. -/
theorem C8_avg_confidence_witness :
    resolveAvgConf (some (mkRat 3 10))
        (some [WordEntry.record (some (mkRat 1 2)), WordEntry.malformed]) =
      (entryConfidences
          [WordEntry.record (some (mkRat 1 2)), WordEntry.malformed]).sum /
        ((entryConfidences
          [WordEntry.record (some (mkRat 1 2)), WordEntry.malformed]).length : ℚ) ∧
    resolveAvgConf (some (mkRat 3 10)) (some [WordEntry.malformed]) =
      (some (mkRat 3 10)).getD 1 ∧
    resolveAvgConf none none = 1 :=
  ⟨(C8_avg_confidence (some (mkRat 3 10)) 0
      [WordEntry.record (some (mkRat 1 2)), WordEntry.malformed]).1 (by decide),
   (C8_avg_confidence (some (mkRat 3 10)) 0 [WordEntry.malformed]).2.1 (by decide),
   (C8_avg_confidence none 0 []).2.2.2.2.1⟩

/-- C8 counterexample: for the non-empty words list `[malformed]` with
caller confidence 3/10 the code uses the fallback 3/10, which is not the
arithmetic mean of the (empty) list of surviving per-word confidences —
refuting the claim that a non-empty words list always yields that mean. -/
theorem C8_avg_confidence_counterexample :
    entryConfidences [WordEntry.malformed] = [] ∧
    resolveAvgConf (some (mkRat 3 10)) (some [WordEntry.malformed]) = mkRat 3 10 ∧
    resolveAvgConf (some (mkRat 3 10)) (some [WordEntry.malformed]) ≠
      (entryConfidences [WordEntry.malformed]).sum /
        ((entryConfidences [WordEntry.malformed]).length : ℚ) := by
  refine ⟨by decide, by decide, ?_⟩
  have h : (entryConfidences [WordEntry.malformed]).sum /
      ((entryConfidences [WordEntry.malformed]).length : ℚ) = 0 := by
    simp [entryConfidences]
  rw [h]
  decide

/-- The character-level arithmetic of `lowerChar`. -/
theorem toNat_lowerChar (c : Char) :
    (lowerChar c).toNat =
      if 65 ≤ c.toNat ∧ c.toNat ≤ 90 then c.toNat + 32 else c.toNat := by
  by_cases h : 65 ≤ c.toNat ∧ c.toNat ≤ 90
  · simp only [lowerChar]
    rw [if_pos h, if_pos h]
    have hv : (c.toNat + 32).isValidChar := Or.inl (by omega)
    simp only [Char.ofNat]
    rw [dif_pos hv]
    simp [Char.ofNatAux, Char.toNat, UInt32.toNat, UInt32.ofNatCore,
      BitVec.toNat_ofNatLt]
  · simp only [lowerChar]
    rw [if_neg h, if_neg h]

/-- Lowercasing a character twice is the same as doing it once. -/
theorem lowerChar_idem (c : Char) : lowerChar (lowerChar c) = lowerChar c := by
  have h := toNat_lowerChar c
  have h2 := toNat_lowerChar (lowerChar c)
  by_cases hc : 65 ≤ (lowerChar c).toNat ∧ (lowerChar c).toNat ≤ 90
  · exfalso
    by_cases h65 : 65 ≤ c.toNat ∧ c.toNat ≤ 90
    · rw [if_pos h65] at h
      omega
    · rw [if_neg h65] at h
      omega
  · rw [if_neg hc] at h2
    exact Char.ext (UInt32.ext h2)

/-- Lowercasing a string twice is the same as doing it once. -/
theorem pyLower_idem (s : String) : pyLower (pyLower s) = pyLower s := by
  unfold pyLower
  congr 1
  rw [show (String.mk (s.toList.map lowerChar)).toList
      = s.toList.map lowerChar from rfl, List.map_map]
  exact List.map_congr_left (fun c _ => lowerChar_idem c)

/-- C9 (amended): after construction and after each update, every member of
the ignored-words set and of the force-stop-words set is lowercase (it is a
fixpoint of `pyLower`); surrounding whitespace, however, is preserved as
supplied — the trimming part of the original claim does not hold. -/
theorem C9_sets_lowercase (ign fs : Option (List String)) (minc igb : ℚ)
    (new_list : List String) (w : String) :
    (w ∈ (handlerInit ign fs minc igb).ignored_words → pyLower w = w) ∧
    (w ∈ (handlerInit ign fs minc igb).force_stop_words → pyLower w = w) ∧
    (w ∈ update_ignored_words new_list → pyLower w = w) ∧
    (w ∈ update_force_stop_words new_list → pyLower w = w) := by
  refine ⟨?_, ?_, ?_, ?_⟩ <;>
    · intro hw
      simp only [handlerInit, update_ignored_words, update_force_stop_words,
        List.mem_map] at hw
      obtain ⟨v, _, rfl⟩ := hw
      exact pyLower_idem v

/-- C9 witness: a mixed-case entry with surrounding blanks is stored
lowercased in each of the four set-producing operations. -/
theorem C9_sets_lowercase_witness :
    pyLower " uh " = " uh " ∧ pyLower "stop" = "stop" :=
  ⟨(C9_sets_lowercase (some [" Uh "]) (some ["STOP"]) (mkRat 1 2) (mkRat 2 5)
      [" Uh "] " uh ").2.2.1 (by decide),
   (C9_sets_lowercase (some [" Uh "]) (some ["STOP"]) (mkRat 1 2) (mkRat 2 5)
      ["STOP"] "stop").2.1 (by decide)⟩

/-- C9 counterexample: updating the ignored words with " Uh " stores the
member " uh ", which still carries its surrounding whitespace — the sets do
not contain only trimmed tokens. -/
theorem C9_sets_lowercase_counterexample :
    " uh " ∈ update_ignored_words [" Uh "] ∧ pyStrip " uh " ≠ " uh " :=
  ⟨by decide, by decide⟩

/-- Lookup after a cons. -/
theorem dictGet_cons (p : String × MValue) (m : Metadata) (k : String) :
    dictGet (p :: m) k = if p.1 = k then some p.2 else dictGet m k := by
  unfold dictGet
  rw [List.find?_cons]
  by_cases h : p.1 = k
  · simp [h]
  · simp [h]

/-- A key bound nowhere in the dict looks up to `none`. -/
theorem dictGet_eq_none (m : Metadata) (k : String)
    (h : k ∉ m.map Prod.fst) : dictGet m k = none := by
  have hf : m.find? (fun p => p.1 = k) = none :=
    List.find?_eq_none.mpr (by
      intro x hx
      simp only [decide_eq_true_eq]
      intro hxk
      exact h (List.mem_map.mpr ⟨x, hx, hxk⟩))
  unfold dictGet
  rw [hf]
  rfl

/-- Overwriting the bindings of `k` does not change lookups of other keys. -/
theorem find_replace_ne (d : Metadata) (k q : String) (v : MValue)
    (hq : q ≠ k) :
    (d.map (fun p => if p.1 = k then (k, v) else p)).find? (fun p => p.1 = q) =
      d.find? (fun p => p.1 = q) := by
  induction d with
  | nil => rfl
  | cons p d ih =>
    simp only [List.map_cons, List.find?_cons]
    by_cases hp : p.1 = k
    · have hkq : ¬ (k = q) := fun h => hq h.symm
      have hpq : ¬ (p.1 = q) := fun h => hq (h.symm.trans hp)
      simp [hp, hkq, hpq, ih]
    · by_cases hpq : p.1 = q
      · simp [hp, hpq, hq]
      · simp [hp, hpq, ih]

/-- After overwriting an existing key, looking it up yields the new value. -/
theorem find_replace_self (d : Metadata) (k : String) (v : MValue)
    (h : d.any (fun p => p.1 = k) = true) :
    (d.map (fun p => if p.1 = k then (k, v) else p)).find? (fun p => p.1 = k) =
      some (k, v) := by
  induction d with
  | nil => simp at h
  | cons p d ih =>
    simp only [List.map_cons, List.find?_cons]
    by_cases hp : p.1 = k
    · simp [hp]
    · have h' : d.any (fun p => p.1 = k) = true := by
        rcases List.any_eq_true.mp h with ⟨x, hx, hxk⟩
        rcases List.mem_cons.mp hx with h1 | h2
        · exact absurd (by simpa [h1] using hxk) hp
        · exact List.any_eq_true.mpr ⟨x, h2, hxk⟩
      simp [hp, ih h']

/-- Appending a fresh binding of `k` makes lookups of `k` find it. -/
theorem find_append_eq (d : Metadata) (k : String) (v : MValue)
    (h : d.any (fun p => p.1 = k) = false) :
    (d ++ [(k, v)]).find? (fun p => p.1 = k) = some (k, v) := by
  induction d with
  | nil => simp [List.find?_cons]
  | cons p d ih =>
    have hp : ¬ (p.1 = k) := by
      intro hpk
      have := List.any_eq_false.mp h p (List.mem_cons_self p d)
      simp [hpk] at this
    have h' : d.any (fun p => p.1 = k) = false :=
      List.any_eq_false.mpr
        (fun x hx => List.any_eq_false.mp h x (List.mem_cons_of_mem p hx))
    simp only [List.cons_append, List.find?_cons]
    simp [hp, ih h']

/-- Appending a binding of `k` does not change lookups of other keys. -/
theorem find_append_ne (d : Metadata) (k q : String) (v : MValue)
    (hq : q ≠ k) :
    (d ++ [(k, v)]).find? (fun p => p.1 = q) = d.find? (fun p => p.1 = q) := by
  induction d with
  | nil =>
    have hkq : ¬ (k = q) := fun h => hq h.symm
    simp [List.find?_cons, hkq, List.find?]
  | cons p d ih =>
    simp only [List.cons_append, List.find?_cons]
    by_cases hp : p.1 = q
    · simp [hp]
    · simp [hp, ih]

/-- Dict assignment semantics at the lookup level: after `d[k] = v`, `k`
looks up to `v` and every other key is unchanged. -/
theorem dictGet_dictInsert (d : Metadata) (k : String) (v : MValue)
    (q : String) :
    dictGet (dictInsert d k v) q = if q = k then some v else dictGet d q := by
  unfold dictInsert
  by_cases hq : q = k
  · subst hq
    rw [if_pos rfl]
    split
    · next hany =>
      unfold dictGet
      rw [find_replace_self d q v hany]
      rfl
    · next hany =>
      rw [Bool.not_eq_true] at hany
      unfold dictGet
      rw [find_append_eq d q v hany]
      rfl
  · rw [if_neg hq]
    split
    · unfold dictGet
      rw [find_replace_ne d k q v hq]
    · unfold dictGet
      rw [find_append_ne d k q v hq]

/-- Lookup in the dict built by spreading `m` over `d`: a key bound in `m`
(whose keys are distinct, as a Python dict's are) takes `m`'s value; any
other key keeps `d`'s value. -/
theorem dictGet_foldl_insert (m : Metadata) (d : Metadata) (k : String)
    (hm : (m.map Prod.fst).Nodup) :
    dictGet (m.foldl (fun acc kv => dictInsert acc kv.1 kv.2) d) k =
      olookup (dictGet m k) (dictGet d k) := by
  induction m generalizing d with
  | nil => rfl
  | cons kv m ih =>
    have hm' : (kv.1 :: m.map Prod.fst).Nodup := by
      rw [List.map_cons] at hm
      exact hm
    have hm0 := List.nodup_cons.mp hm'
    rw [List.foldl_cons, ih _ hm0.2, dictGet_cons]
    by_cases hk : kv.1 = k
    · subst hk
      rw [if_pos rfl, dictGet_eq_none m kv.1 hm0.1,
        dictGet_dictInsert, if_pos rfl]
      rfl
    · rw [if_neg hk, dictGet_dictInsert, if_neg (fun h => hk h.symm)]

/-- A probe handler that raises, carrying the metadata map it was invoked
with as the exception payload — used to observe what a callback receives. -/
def cbProbe : String → Metadata → Except Metadata Unit :=
  fun _ m => .error m

/-- A registry with the probe handler in the speech_registered slot. -/
def cbsProbe : Callbacks Metadata := ⟨none, none, some cbProbe⟩

/-- A handler that raises the exception `7`. -/
def cbRaise : String → Metadata → Except Nat Unit := fun _ _ => .error 7

/-- A registry with the raising handler in the speech_registered slot. -/
def cbsRaise : Callbacks Nat := ⟨none, none, some cbRaise⟩

/-- C1 (amended): whenever a classification invokes a registered callback,
the metadata map passed to it is the diagnostic fields merged with the
caller-supplied metadata, and on a key collision the CALLER-supplied value
takes precedence (the source spreads `**metadata` after the diagnostic
fields); keys the caller does not supply keep the diagnostic value. -/
theorem C1_metadata_merge {ε : Type} (cfg : Config) (sp : Bool)
    (text : String) (confidence : Option ℚ) (words : Option (List WordEntry))
    (metadata : Metadata) (cbs : Callbacks ε) (o : Outcome)
    (cb : String → Metadata → Except ε Unit) (k : String)
    (ho : classify cfg sp text confidence words = some o)
    (hcb : slotFor o.kind cbs = some cb)
    (hm : (metadata.map Prod.fst).Nodup) :
    handle_transcript cfg sp cbs text confidence words metadata =
      cb (pyStrip text) (payloadFor o metadata) ∧
    dictGet (payloadFor o metadata) k =
      olookup (dictGet metadata k) (dictGet (diagFields o) k) := by
  constructor
  · simp [handle_transcript, ho, hcb]
  · exact dictGet_foldl_insert metadata (diagFields o) k hm

/-- C1 witness: with caller metadata binding "session" and the quiet-agent
outcome, the callback receives the merged map where the unshadowed
diagnostic key "reason" keeps its diagnostic value. -/
theorem C1_metadata_merge_witness :
    handle_transcript cfgEx false cbsA "hi" none none
        [("session", MValue.str "s1")] =
      cbNoop (pyStrip "hi")
        (payloadFor outQuiet [("session", MValue.str "s1")]) ∧
    dictGet (payloadFor outQuiet [("session", MValue.str "s1")]) "reason" =
      olookup (dictGet [("session", MValue.str "s1")] "reason")
        (dictGet (diagFields outQuiet) "reason") :=
  C1_metadata_merge cfgEx false "hi" none none [("session", MValue.str "s1")]
    cbsA outQuiet cbNoop "reason" (by decide) rfl (by decide)

/-- C1 counterexample: caller metadata that reuses the key "reason" wins the
collision — the callback observes "mine", not the diagnostic value
"agent_quiet" — refuting the claimed diagnostic-field precedence. -/
theorem C1_metadata_merge_counterexample :
    handle_transcript cfgEx false cbsProbe "hi" none none
        [("reason", MValue.str "mine")] =
      .error (payloadFor outQuiet [("reason", MValue.str "mine")]) ∧
    dictGet (payloadFor outQuiet [("reason", MValue.str "mine")]) "reason" =
      some (MValue.str "mine") ∧
    dictGet (diagFields outQuiet) "reason" = some (MValue.str "agent_quiet") ∧
    MValue.str "mine" ≠ MValue.str "agent_quiet" :=
  ⟨rfl, by decide, by decide, by decide⟩

/-- C2 (amended): the source wraps callback invocations in no try/except, so
a handler that raises propagates its exception to the caller of
`handle_transcript`: the classification call finishes with the handler's
error instead of completing normally. -/
theorem C2_handler_exception_propagates {ε : Type} (cfg : Config) (sp : Bool)
    (text : String) (confidence : Option ℚ) (words : Option (List WordEntry))
    (metadata : Metadata) (cbs : Callbacks ε) (o : Outcome)
    (cb : String → Metadata → Except ε Unit) (e : ε)
    (ho : classify cfg sp text confidence words = some o)
    (hcb : slotFor o.kind cbs = some cb)
    (he : cb (pyStrip text) (payloadFor o metadata) = .error e) :
    handle_transcript cfg sp cbs text confidence words metadata = .error e := by
  simp [handle_transcript, ho, hcb, he]

/-- C2 witness: a raising speech_registered handler makes the classification
call finish with its error. -/
theorem C2_handler_exception_propagates_witness :
    handle_transcript cfgEx false cbsRaise "hi" none none [] =
      (.error 7 : Except Nat Unit) :=
  C2_handler_exception_propagates cfgEx false "hi" none none [] cbsRaise
    outQuiet cbRaise 7 (by decide) rfl rfl

/-- C2 counterexample: with a handler that raises, the classification call
does NOT complete normally — refuting the claim that handler exceptions are
caught inside the call. -/
theorem C2_handler_exception_counterexample :
    handle_transcript cfgEx false cbsRaise "hi" none none [] =
      (.error 7 : Except Nat Unit) ∧
    (.error 7 : Except Nat Unit) ≠ .ok () :=
  ⟨rfl, fun h => Except.noConfusion h⟩

end FillerInterrupt
